import Mathlib

/-!
# Verification of the strat-build-tool simulation-and-metrics core

Shallow embedding of the repository's core (src/base_strategy.py,
src/performance.py, src/backtester.py) and proofs about the claims of the
specification.

Modelling conventions:
* A pandas `Series` of floats is modelled as `List ℚ` when it can hold no
  NaN on the relevant code path, and as `List (Option ℚ)` when NaN can
  occur (`none` = NaN).  IEEE NaN propagation (`NaN op x = NaN`,
  `0 * NaN = NaN`, `|NaN| = NaN`) is modelled by `none`-propagation;
  `fillna(v)` replaces `none` by `v`.
* Floats are modelled by exact rationals; `sqrt` forces `ℝ` in the
  performance analyzer, whose definitions are therefore `noncomputable`.
* Python exceptions are modelled by `Except String`.
-/

namespace StratBuild

/-- NaN-propagating subtraction on modelled float values
(`none` = NaN, as produced by pandas `Series.diff` / arithmetic). -/
def osub : Option ℚ → Option ℚ → Option ℚ
  | some a, some b => some (a - b)
  | _, _ => none

/-- `|x|` followed by `fillna(0)`: pandas `.abs().fillna(0)` on a value. -/
def absFill0 : Option ℚ → ℚ
  | some a => |a|
  | none => 0

/-- `TradingConfig` from src/base_strategy.py lines 18-24 (defaults:
initial_capital = 100000.0, transaction_cost_bps = 0.1,
risk_free_rate = 0.02). -/
structure TradingConfig where
  initial_capital : ℚ := 100000
  transaction_cost_bps : ℚ := 1/10
  risk_free_rate : ℚ := 1/50
deriving DecidableEq, Repr

/-- `close.pct_change().fillna(0)` (src/base_strategy.py line 137) on a
price series without NaN: entry 0 is NaN filled to 0, entry `t ≥ 1` is
`close[t]/close[t-1] - 1`. -/
def pct_change_fill0 : List ℚ → List ℚ
  | [] => []
  | c :: cs => 0 :: List.zipWith (fun cur prev => cur / prev - 1) cs (c :: cs)

/-- `signals.shift(1)` (src/base_strategy.py line 143): same length as the
input, NaN at index 0, entry `t ≥ 1` is `signals[t-1]`. -/
def shift1 (signals : List ℚ) : List (Option ℚ) :=
  (none :: signals.map some).take signals.length

/-- `position.diff()` (src/base_strategy.py line 146): same length as the
input, NaN at index 0, entry `t ≥ 1` is `position[t] - position[t-1]`
(NaN-propagating). -/
def diffNan : List (Option ℚ) → List (Option ℚ)
  | [] => []
  | x :: xs => none :: List.zipWith osub xs (x :: xs)

/-- pandas `cumprod()` (src/base_strategy.py line 153): NaN entries stay
NaN and are skipped in the running product (`skipna` default). -/
def cumprodSkip (acc : ℚ) : List (Option ℚ) → List (Option ℚ)
  | [] => []
  | none :: xs => none :: cumprodSkip acc xs
  | some v :: xs => some (acc * v) :: cumprodSkip (acc * v) xs

/-- The portfolio DataFrame built by `TradingStrategy.execute_trades`
(src/base_strategy.py lines 139-155), one list per column.  `trades` is
the local variable of line 146 (the trade-size series). -/
structure Portfolio where
  signal : List ℚ
  market_returns : List ℚ
  position : List (Option ℚ)
  trades : List ℚ
  strategy_returns : List (Option ℚ)
  portfolio_value : List (Option ℚ)
deriving DecidableEq, Repr

/-- Trade sizes: `position.diff().abs().fillna(0)`
(src/base_strategy.py line 146), as a function of the signal series. -/
def trade_sizes (signals : List ℚ) : List ℚ :=
  (diffNan (shift1 signals)).map absFill0

/-- The body of `TradingStrategy.execute_trades` after the price data
guard (src/base_strategy.py lines 135-155): builds the portfolio columns
from the loaded close prices and the generated signal series.  Signals are
produced by the strategy on the same date index as the prices, so the two
series are index-aligned by construction. -/
def buildPortfolio (closes : List ℚ) (signals : List ℚ) (cfg : TradingConfig) :
    Portfolio :=
  let returns := pct_change_fill0 closes
  let position := shift1 signals
  let trades := (diffNan position).map absFill0
  let costs := trades.map (fun t => t * (cfg.transaction_cost_bps / 10000))
  let strategy_returns :=
    List.zipWith (fun p rc => p.map (fun pv => pv * rc.1 - rc.2))
      position (returns.zip costs)
  let portfolio_value :=
    (cumprodSkip 1 (strategy_returns.map (Option.map (fun r => 1 + r)))).map
      (Option.map (fun v => v * cfg.initial_capital))
  { signal := signals
    market_returns := returns
    position := position
    trades := trades
    strategy_returns := strategy_returns
    portfolio_value := portfolio_value }

/-- `TradingStrategy.execute_trades` (src/base_strategy.py lines 130-155).
`priceData = none` models a strategy object on which `load_data` was never
called (`hasattr(self, "price_data")` false, line 132): the only failure
path of the routine.  `gen` is the abstract `generate_signals` method
(line 126-128, implemented by the strategy subclasses), applied to the
loaded close prices. -/
def execute_trades (priceData : Option (List ℚ)) (gen : List ℚ → List ℚ)
    (cfg : TradingConfig) : Except String Portfolio :=
  match priceData with
  | none => .error "No price data loaded"
  | some closes => .ok (buildPortfolio closes (gen closes) cfg)

/-! ### Indexing lemmas for the simulator columns -/

theorem length_pct_change_fill0 (c : List ℚ) :
    (pct_change_fill0 c).length = c.length := by
  cases c with
  | nil => rfl
  | cons x xs => simp [pct_change_fill0]

theorem length_shift1 (s : List ℚ) : (shift1 s).length = s.length := by
  simp [shift1]

theorem length_diffNan (l : List (Option ℚ)) : (diffNan l).length = l.length := by
  cases l with
  | nil => rfl
  | cons x xs => simp [diffNan]

theorem length_trade_sizes (s : List ℚ) : (trade_sizes s).length = s.length := by
  simp [trade_sizes, length_diffNan, length_shift1]

theorem shift1_getElem_zero (s : List ℚ) (h : s ≠ []) :
    (shift1 s)[0]? = some none := by
  cases s with
  | nil => exact absurd rfl h
  | cons x xs => simp [shift1]

theorem shift1_getElem_pos (s : List ℚ) (t : ℕ) (h1 : 0 < t) (h2 : t < s.length) :
    (shift1 s)[t]? = (s[t - 1]?).map some := by
  unfold shift1
  rw [List.getElem?_take_of_lt h2]
  obtain ⟨u, rfl⟩ : ∃ u, t = u + 1 := ⟨t - 1, (Nat.succ_pred_eq_of_pos h1).symm⟩
  simp [List.getElem?_map]

theorem diffNan_getElem_zero (l : List (Option ℚ)) (h : l ≠ []) :
    (diffNan l)[0]? = some none := by
  cases l with
  | nil => exact absurd rfl h
  | cons x xs => simp [diffNan]

theorem diffNan_getElem_pos (l : List (Option ℚ)) (t : ℕ) (a b : Option ℚ)
    (h1 : 0 < t) (ha : l[t]? = some a) (hb : l[t - 1]? = some b) :
    (diffNan l)[t]? = some (osub a b) := by
  cases l with
  | nil => simp at ha
  | cons x xs =>
    obtain ⟨u, rfl⟩ : ∃ u, t = u + 1 := ⟨t - 1, (Nat.succ_pred_eq_of_pos h1).symm⟩
    simp only [diffNan, List.getElem?_cons_succ, List.getElem?_zipWith']
    simp only [List.getElem?_cons_succ] at ha
    simp only [Nat.add_sub_cancel] at hb
    rw [ha, hb]
    rfl

theorem trade_sizes_getElem_zero (s : List ℚ) (h : s ≠ []) :
    (trade_sizes s)[0]? = some 0 := by
  have hs : shift1 s ≠ [] := by
    intro hc
    have := length_shift1 s
    rw [hc] at this
    exact h (List.length_eq_zero.mp this.symm)
  simp [trade_sizes, List.getElem?_map, diffNan_getElem_zero _ hs, absFill0]

theorem trade_sizes_getElem_one (s : List ℚ) (h : 1 < s.length) :
    (trade_sizes s)[1]? = some 0 := by
  have hne : s ≠ [] := by
    intro hc; rw [hc] at h; simp at h
  have h0 : (shift1 s)[0]? = some none := shift1_getElem_zero s hne
  have h1 : (shift1 s)[1]? = (s[0]?).map some := by
    simpa using shift1_getElem_pos s 1 (by omega) (by omega)
  obtain ⟨v, hv⟩ : ∃ v, s[0]? = some v :=
    ⟨s.get ⟨0, by omega⟩, List.getElem_eq_iff.mp rfl⟩
  rw [hv] at h1
  have hd : (diffNan (shift1 s))[1]? = some (osub (some v) none) :=
    diffNan_getElem_pos _ 1 (some v) none (by omega) h1 (by simpa using h0)
  simp [trade_sizes, List.getElem?_map, hd, osub, absFill0]

theorem trade_sizes_getElem_ge2 (s : List ℚ) (t : ℕ) (a b : ℚ)
    (h1 : 2 ≤ t) (h2 : t < s.length)
    (ha : s[t - 1]? = some a) (hb : s[t - 2]? = some b) :
    (trade_sizes s)[t]? = some |a - b| := by
  have hpt : (shift1 s)[t]? = some (some a) := by
    rw [shift1_getElem_pos s t (by omega) h2, ha]; rfl
  have hpt1 : (shift1 s)[t - 1]? = some (some b) := by
    rw [shift1_getElem_pos s (t - 1) (by omega) (by omega)]
    have : t - 1 - 1 = t - 2 := by omega
    rw [this, hb]; rfl
  have hd : (diffNan (shift1 s))[t]? = some (osub (some a) (some b)) :=
    diffNan_getElem_pos _ t (some a) (some b) (by omega) hpt hpt1
  simp [trade_sizes, List.getElem?_map, hd, osub, absFill0]

theorem getElem?_some_of_lt {α : Type} (l : List α) (i : ℕ) (h : i < l.length) :
    ∃ v, l[i]? = some v :=
  ⟨l.get ⟨i, h⟩, List.getElem_eq_iff.mp rfl⟩

theorem buildPortfolio_position (c s : List ℚ) (cfg : TradingConfig) :
    (buildPortfolio c s cfg).position = shift1 s := rfl

theorem buildPortfolio_trades (c s : List ℚ) (cfg : TradingConfig) :
    (buildPortfolio c s cfg).trades = trade_sizes s := rfl

theorem buildPortfolio_strategy_returns (c s : List ℚ) (cfg : TradingConfig) :
    (buildPortfolio c s cfg).strategy_returns =
      List.zipWith (fun p rc => p.map (fun pv => pv * rc.1 - rc.2))
        (shift1 s)
        ((pct_change_fill0 c).zip
          ((trade_sizes s).map (fun t => t * (cfg.transaction_cost_bps / 10000)))) :=
  rfl

theorem strategy_returns_getElem (closes signals : List ℚ) (cfg : TradingConfig)
    (t : ℕ) (p : Option ℚ) (r c : ℚ)
    (hp : (shift1 signals)[t]? = some p)
    (hr : (pct_change_fill0 closes)[t]? = some r)
    (hc : ((trade_sizes signals).map
        (fun x => x * (cfg.transaction_cost_bps / 10000)))[t]? = some c) :
    (buildPortfolio closes signals cfg).strategy_returns[t]? =
      some (p.map (fun pv => pv * r - c)) := by
  rw [buildPortfolio_strategy_returns, List.getElem?_zipWith', hp]
  have hz : ((pct_change_fill0 closes).zip
      ((trade_sizes signals).map
        (fun x => x * (cfg.transaction_cost_bps / 10000))))[t]? = some (r, c) := by
    rw [List.zip, List.getElem?_zipWith', hr, hc]
    rfl
  rw [hz]
  rfl

/-! ### Claim C1: position lags signal by one period -/

/-- C1 (counterexample): the claim asserts `position[0] = 0`, but
`signals.shift(1)` (src/base_strategy.py line 143) puts NaN — not 0 — at
index 0: on the two-point price series `[100, 101]` with signal series
`[1, 1]`, the simulated `position[0]` is NaN (`none`), not `0`. -/
theorem position_zero_cex :
    (buildPortfolio [100, 101] [1, 1] {}).position[0]? = some none ∧
    (buildPortfolio [100, 101] [1, 1] {}).position[0]? ≠ some (some 0) := by
  have h : (buildPortfolio [100, 101] [1, 1] {}).position[0]? = some none := by
    norm_num [buildPortfolio_position, shift1]
  exact ⟨h, by rw [h]; simp⟩

/-- C1 (amended): for every simulation on a non-empty price series and an
aligned signal series, `position[t] = signal[t-1]` for every `t > 0`, and
`position[0]` is NaN (undefined — no prior signal exists), not 0. -/
theorem position_lag (closes signals : List ℚ) (cfg : TradingConfig)
    (hlen : signals.length = closes.length) (hne : closes ≠ []) :
    (buildPortfolio closes signals cfg).position[0]? = some none ∧
    ∀ t, 0 < t → t < signals.length →
      (buildPortfolio closes signals cfg).position[t]? = (signals[t - 1]?).map some := by
  have hsne : signals ≠ [] := by
    intro hc
    rw [hc] at hlen
    exact hne (List.length_eq_zero.mp hlen.symm)
  constructor
  · rw [buildPortfolio_position]
    exact shift1_getElem_zero signals hsne
  · intro t ht htl
    rw [buildPortfolio_position]
    exact shift1_getElem_pos signals t ht htl

/-- C1 witness: concrete instance of `position_lag` on the price series
`[100, 101, 102]` with signal series `[1, 0, 1]`. -/
theorem position_lag_witness :
    ([1, 0, 1] : List ℚ).length = ([100, 101, 102] : List ℚ).length ∧
    ([100, 101, 102] : List ℚ) ≠ [] ∧
    (buildPortfolio [100, 101, 102] [1, 0, 1] {}).position[0]? = some none ∧
    (buildPortfolio [100, 101, 102] [1, 0, 1] {}).position[2]? = some (some 0) := by
  refine ⟨by norm_num, by simp, (position_lag _ _ _ (by norm_num) (by simp)).1, ?_⟩
  rw [(position_lag [100, 101, 102] [1, 0, 1] {} (by norm_num) (by simp)).2 2
    (by norm_num) (by norm_num)]
  norm_num

/-! ### Claim C2: all-zero signals give zero strategy returns -/

/-- C2 (counterexample): the claim asserts `strategy_return[t] = 0` for
every `t` including `t = 0`, but at `t = 0` the position is NaN and
`NaN * market_return - cost` is NaN (src/base_strategy.py lines 143-150):
on prices `[100, 101]` with the all-zero signal series,
`strategy_return[0]` is NaN (`none`), not `0`. -/
theorem zero_signals_cex :
    (buildPortfolio [100, 101] [0, 0] {}).strategy_returns[0]? = some none ∧
    (buildPortfolio [100, 101] [0, 0] {}).strategy_returns[0]? ≠ some (some 0) := by
  have h : (buildPortfolio [100, 101] [0, 0] {}).strategy_returns[0]? = some none := by
    norm_num [buildPortfolio, pct_change_fill0, shift1, diffNan, osub, absFill0]
  exact ⟨h, by rw [h]; simp⟩

/-- C2 (amended): with the all-zero signal series on a non-empty price
series, `strategy_return[t] = 0` for every `t ≥ 1`, while
`strategy_return[0]` is NaN.  The positivity hypothesis on the closes
restricts the statement to genuine `PriceSeries` values (spec §3: close
prices strictly positive); it keeps the exact-rational model faithful,
since a zero close price would produce an IEEE infinity in the code. -/
theorem zero_signals_returns (closes signals : List ℚ) (cfg : TradingConfig)
    (hlen : signals.length = closes.length)
    (hzero : ∀ i, i < signals.length → signals[i]? = some 0)
    (hpos : ∀ c ∈ closes, 0 < c) (hne : closes ≠ []) :
    (buildPortfolio closes signals cfg).strategy_returns[0]? = some none ∧
    ∀ t, 0 < t → t < closes.length →
      (buildPortfolio closes signals cfg).strategy_returns[t]? = some (some 0) := by
  have hlpos : 0 < closes.length := List.length_pos.mpr hne
  have hsne : signals ≠ [] := by
    intro hc
    rw [hc] at hlen
    exact hne (List.length_eq_zero.mp hlen.symm)
  have hclen : (pct_change_fill0 closes).length = closes.length :=
    length_pct_change_fill0 closes
  have hcostlen : ((trade_sizes signals).map
      (fun x => x * (cfg.transaction_cost_bps / 10000))).length = closes.length := by
    simp [length_trade_sizes, hlen]
  constructor
  · obtain ⟨r, hr⟩ := getElem?_some_of_lt (pct_change_fill0 closes) 0 (by omega)
    obtain ⟨c, hc⟩ := getElem?_some_of_lt ((trade_sizes signals).map
      (fun x => x * (cfg.transaction_cost_bps / 10000))) 0 (by omega)
    rw [strategy_returns_getElem closes signals cfg 0 none r c
      (shift1_getElem_zero signals hsne) hr hc]
    rfl
  · intro t ht htl
    obtain ⟨r, hr⟩ := getElem?_some_of_lt (pct_change_fill0 closes) t (by omega)
    have hp : (shift1 signals)[t]? = some (some 0) := by
      rw [shift1_getElem_pos signals t ht (by omega), hzero (t - 1) (by omega)]
      rfl
    have htr : (trade_sizes signals)[t]? = some 0 := by
      rcases Nat.lt_or_ge t 2 with h2 | h2
      · have ht1 : t = 1 := by omega
        rw [ht1]
        exact trade_sizes_getElem_one signals (by omega)
      · exact trade_sizes_getElem_ge2 signals t 0 0 h2 (by omega)
          (hzero (t - 1) (by omega)) (hzero (t - 2) (by omega)) |>.trans (by norm_num)
    have hc : ((trade_sizes signals).map
        (fun x => x * (cfg.transaction_cost_bps / 10000)))[t]? = some 0 := by
      rw [List.getElem?_map, htr]
      simp
    rw [strategy_returns_getElem closes signals cfg t (some 0) r 0 hp hr hc]
    simp

/-- C2 witness: concrete instance of `zero_signals_returns` on prices
`[100, 101]`. -/
theorem zero_signals_returns_witness :
    ([0, 0] : List ℚ).length = ([100, 101] : List ℚ).length ∧
    (∀ c ∈ ([100, 101] : List ℚ), 0 < c) ∧
    ([100, 101] : List ℚ) ≠ [] ∧
    (buildPortfolio [100, 101] [0, 0] {}).strategy_returns[0]? = some none ∧
    (buildPortfolio [100, 101] [0, 0] {}).strategy_returns[1]? = some (some 0) := by
  have hz : ∀ i, i < ([0, 0] : List ℚ).length → ([0, 0] : List ℚ)[i]? = some 0 := by
    intro i hi
    simp only [List.length_cons, List.length_nil] at hi
    interval_cases i <;> norm_num
  refine ⟨by norm_num, by norm_num, by simp,
    (zero_signals_returns _ _ _ (by norm_num) hz (by norm_num) (by simp)).1,
    (zero_signals_returns _ _ _ (by norm_num) hz (by norm_num) (by simp)).2 1
      (by norm_num) (by norm_num)⟩

/-! ### Claim C3: one sign change gives exactly one trade -/

/-- C3 (counterexample): the claim asserts exactly one nonzero trade_size
entry at `k+1` for any signal series with exactly one sign change at `k`.
On the two-point series `[100, 101]` with signals `[-1, 1]` (one sign
change, at `k = 1`), `k + 1 = 2` is past the end of the series and the
trade-size sequence `[0, 0]` has no nonzero entry at all (the NaN position
at index 0 also silences the index-1 diff through `fillna(0)`). -/
theorem one_sign_change_cex :
    (buildPortfolio [100, 101] [-1, 1] {}).trades = [0, 0] ∧
    ¬ ((buildPortfolio [100, 101] [-1, 1] {}).trades.countP
        (fun x => decide (x ≠ 0)) = 1) := by
  have h : (buildPortfolio [100, 101] [-1, 1] {}).trades = [0, 0] := by
    rw [buildPortfolio_trades]
    norm_num [trade_sizes, diffNan, shift1, osub, absFill0]
  refine ⟨h, ?_⟩
  rw [h]
  simp [List.countP_cons]

/-- C3 (amended): for a signal series with exactly one sign change at
index `k` (constant value `a` before `k`, constant `b ≠ a` from `k` on),
with `1 ≤ k` and `k + 1` still inside the series, the simulated trade-size
sequence is nonzero exactly at index `k + 1`, where it equals `|b - a|`.
(When the change happens at the last index, `k + 1` is out of range and no
nonzero trade occurs, as the counterexample shows.) -/
theorem one_sign_change_trades (closes signals : List ℚ) (cfg : TradingConfig)
    (a b : ℚ) (k : ℕ)
    (hlen : signals.length = closes.length)
    (hk1 : 1 ≤ k) (hk2 : k + 1 < signals.length)
    (hsig : ∀ i, i < signals.length → signals[i]? = some (if i < k then a else b))
    (hab : a ≠ b) :
    (buildPortfolio closes signals cfg).trades[k + 1]? = some |b - a| ∧
    |b - a| ≠ 0 ∧
    ∀ t, t < signals.length → t ≠ k + 1 →
      (buildPortfolio closes signals cfg).trades[t]? = some 0 := by
  rw [buildPortfolio_trades]
  have hsne : signals ≠ [] := by
    intro hc
    rw [hc] at hk2
    simp at hk2
  refine ⟨?_, ?_, ?_⟩
  · have ha : signals[k + 1 - 1]? = some b := by
      have he : k + 1 - 1 = k := by omega
      rw [he, hsig k (by omega)]
      simp [Nat.lt_irrefl]
    have hb : signals[k + 1 - 2]? = some a := by
      have hlt : k - 1 < k := by omega
      have : k + 1 - 2 = k - 1 := by omega
      rw [this, hsig (k - 1) (by omega), if_pos hlt]
    exact trade_sizes_getElem_ge2 signals (k + 1) b a (by omega) hk2 ha hb
  · intro hc
    exact hab ((sub_eq_zero.mp (abs_eq_zero.mp hc)).symm)
  · intro t htl htne
    rcases Nat.lt_or_ge t 2 with h2 | h2
    · rcases Nat.lt_or_ge t 1 with h1 | h1
      · have ht0 : t = 0 := by omega
        rw [ht0]
        exact trade_sizes_getElem_zero signals hsne
      · have ht1 : t = 1 := by omega
        rw [ht1]
        exact trade_sizes_getElem_one signals (by omega)
    · rcases Nat.lt_or_ge t (k + 1) with hlt | hge
      · have ha : signals[t - 1]? = some a := by
          rw [hsig (t - 1) (by omega), if_pos (by omega)]
        have hb : signals[t - 2]? = some a := by
          rw [hsig (t - 2) (by omega), if_pos (by omega)]
        rw [trade_sizes_getElem_ge2 signals t a a h2 htl ha hb]
        simp
      · have hge2 : k + 2 ≤ t := by omega
        have ha : signals[t - 1]? = some b := by
          rw [hsig (t - 1) (by omega), if_neg (by omega)]
        have hb : signals[t - 2]? = some b := by
          rw [hsig (t - 2) (by omega), if_neg (by omega)]
        rw [trade_sizes_getElem_ge2 signals t b b h2 htl ha hb]
        simp

/-- C3 witness: concrete instance of `one_sign_change_trades` on prices
`[100, 101, 102]` with signals `[-1, 1, 1]` (sign change at `k = 1`). -/
theorem one_sign_change_trades_witness :
    ([-1, 1, 1] : List ℚ).length = ([100, 101, 102] : List ℚ).length ∧
    (1 : ℕ) ≤ 1 ∧ 1 + 1 < ([-1, 1, 1] : List ℚ).length ∧
    (-1 : ℚ) ≠ 1 ∧
    (buildPortfolio [100, 101, 102] [-1, 1, 1] {}).trades[2]? = some 2 ∧
    (buildPortfolio [100, 101, 102] [-1, 1, 1] {}).trades[0]? = some 0 := by
  have hsig : ∀ i, i < ([-1, 1, 1] : List ℚ).length →
      ([-1, 1, 1] : List ℚ)[i]? = some (if i < 1 then -1 else 1) := by
    intro i hi
    simp only [List.length_cons, List.length_nil] at hi
    interval_cases i <;> norm_num
  have h := one_sign_change_trades [100, 101, 102] [-1, 1, 1] {} (-1) 1 1
    (by norm_num) le_rfl (by norm_num) hsig (by norm_num)
  refine ⟨by norm_num, le_rfl, by norm_num, by norm_num, ?_, h.2.2 0 (by norm_num) (by omega)⟩
  have h1 := h.1
  norm_num at h1
  exact h1

/-! ### Claim C4: simulator error behaviour -/

/-- C4 (counterexample): the claim asserts the simulator fails with an
EmptyInput error on a zero-length price series (and with LengthMismatch on
misaligned series).  `execute_trades` (src/base_strategy.py lines 130-133)
performs neither check: on a loaded zero-length price series it runs to
completion and produces an (empty) SimulationResult instead of failing. -/
theorem execute_trades_empty_cex :
    execute_trades (some []) (fun _ => []) {} =
      .ok (buildPortfolio [] [] {}) := rfl

/-- C4 (amended): the only failure of `execute_trades` is the
"No price data loaded" error, raised exactly when no price series was
loaded; on any loaded (even zero-length) series it returns a
SimulationResult whose rows align with the price series (the signal series
is generated from the loaded prices, so a length mismatch cannot arise;
`hlen` records that the strategy signal generators are index-preserving). -/
theorem execute_trades_errors (gen : List ℚ → List ℚ) (cfg : TradingConfig)
    (closes : List ℚ) (hlen : (gen closes).length = closes.length) :
    execute_trades none gen cfg = .error "No price data loaded" ∧
    execute_trades (some closes) gen cfg =
      .ok (buildPortfolio closes (gen closes) cfg) ∧
    (buildPortfolio closes (gen closes) cfg).strategy_returns.length =
      closes.length := by
  refine ⟨rfl, rfl, ?_⟩
  rw [buildPortfolio_strategy_returns]
  simp [length_shift1, length_pct_change_fill0, length_trade_sizes, hlen]

/-- C4 witness: concrete instance of `execute_trades_errors` with the
constant-zero signal generator on prices `[100, 101]`. -/
theorem execute_trades_errors_witness :
    (([100, 101] : List ℚ).map (fun _ => (0 : ℚ))).length =
      ([100, 101] : List ℚ).length ∧
    execute_trades none (fun c => c.map (fun _ => 0)) {} =
      .error "No price data loaded" ∧
    execute_trades (some [100, 101]) (fun c => c.map (fun _ => 0)) {} =
      .ok (buildPortfolio [100, 101]
        (([100, 101] : List ℚ).map (fun _ => 0)) {}) ∧
    (buildPortfolio [100, 101] (([100, 101] : List ℚ).map (fun _ => 0))
      {}).strategy_returns.length = ([100, 101] : List ℚ).length := by
  have h := execute_trades_errors (fun c => c.map (fun _ => 0)) {} [100, 101]
    (by simp)
  exact ⟨by simp, h.1, h.2.1, by simpa using h.2.2⟩

/-! ### The Price Series Validator (src/base_strategy.py lines 81-124) -/

/-- pandas `Series.ffill` on the close column
(src/base_strategy.py line 106): each NaN is replaced by the most recent
valid prior value (`last`); a NaN with no prior valid value stays NaN. -/
def ffill_go (last : Option ℚ) : List (Option ℚ) → List (Option ℚ)
  | [] => []
  | none :: xs => last :: ffill_go last xs
  | some v :: xs => some v :: ffill_go (some v) xs

/-- `data["close"].isna().sum()` (src/base_strategy.py line 96). -/
def nan_count (l : List (Option ℚ)) : ℕ := l.countP (fun x => x.isNone)

/-- `TradingStrategy._validate_data` (src/base_strategy.py lines 81-106)
restricted to its observable effect on the close column.  Checks in source
order: fewer than 200 points; any non-NaN close ≤ 0 (pandas `NaN <= 0` is
False, so NaN passes the check); NaN percentage above 5 (the comparison
`nan_count / len * 100 > 5` is modelled exactly over ℚ as
`5 * len < nan_count * 100`); otherwise forward-fills when any NaN exists.
The date-gap and extreme-move checks (lines 108-124) only emit warnings
and do not alter the data, so they are omitted. -/
def validate_data (close : List (Option ℚ)) : Except String (List (Option ℚ)) :=
  if close.length < 200 then .error "Insufficient data"
  else if close.any (fun x => match x with
      | some v => decide (v ≤ 0)
      | none => false) then .error "Invalid data"
  else if 5 * close.length < nan_count close * 100 then
    .error "Excessive missing data"
  else if 0 < nan_count close then .ok (ffill_go none close) else .ok close

theorem length_ffill_go (last : Option ℚ) (l : List (Option ℚ)) :
    (ffill_go last l).length = l.length := by
  induction l generalizing last with
  | nil => rfl
  | cons x xs ih => cases x <;> simp [ffill_go, ih]

theorem ffill_go_nan_count_some (w : ℚ) (l : List (Option ℚ)) :
    nan_count (ffill_go (some w) l) = 0 := by
  induction l generalizing w with
  | nil => rfl
  | cons x xs ih => cases x <;> simp [ffill_go, nan_count, List.countP_cons] <;>
      simpa [nan_count] using ih _

theorem ffill_go_getElem_some (last : Option ℚ) (l : List (Option ℚ))
    (i : ℕ) (v : ℚ) (h : l[i]? = some (some v)) :
    (ffill_go last l)[i]? = some (some v) := by
  induction l generalizing last i with
  | nil => simp at h
  | cons x xs ih =>
    cases i with
    | zero =>
      simp only [List.getElem?_cons_zero, Option.some_inj] at h
      subst h
      simp [ffill_go]
    | succ j =>
      simp only [List.getElem?_cons_succ] at h
      cases x <;> simpa [ffill_go] using ih _ j h

theorem ffill_go_replicate_some (v : ℚ) (n : ℕ) (last : Option ℚ) :
    ffill_go last (List.replicate n (some v)) = List.replicate n (some v) := by
  induction n generalizing last with
  | zero => rfl
  | succ m ih => simp [List.replicate_succ, ffill_go, ih]

theorem any_replicate_false {α : Type} (n : ℕ) (a : α) (f : α → Bool)
    (hf : f a = false) : (List.replicate n a).any f = false := by
  induction n with
  | zero => rfl
  | succ m ih => simp [List.replicate_succ, hf, ih]

theorem countP_replicate_false {α : Type} (n : ℕ) (a : α) (p : α → Bool)
    (hp : p a = false) : (List.replicate n a).countP p = 0 := by
  induction n with
  | zero => rfl
  | succ m ih => simp [List.replicate_succ, List.countP_cons, hp, ih]

/-! ### Claim C5: validator success and forward filling -/

/-- C5 (counterexample): the claim asserts the validated series contains
no missing values.  On the 200-point series whose first close is missing
and whose other 199 closes are 1, all validator checks pass (0.5% missing)
but the forward fill has no prior value for index 0, so the series the
validator leaves behind still has its leading NaN. -/
theorem validator_leading_nan_cex :
    validate_data (none :: List.replicate 199 (some 1)) =
      .ok (none :: List.replicate 199 (some 1)) ∧
    nan_count (none :: List.replicate 199 (some 1)) ≠ 0 := by
  have hnc : nan_count (none :: List.replicate 199 (some (1 : ℚ))) = 1 := by
    simp [nan_count, List.countP_cons, countP_replicate_false]
  constructor
  · rw [validate_data]
    rw [if_neg (by simp only [List.length_cons, List.length_replicate]; omega),
      if_neg ?hany, if_neg (by rw [hnc]; norm_num),
      if_pos (by rw [hnc]; norm_num)]
    case hany =>
      simp only [List.any_cons, Bool.or_eq_true, not_or]
      refine ⟨by simp, ?_⟩
      rw [any_replicate_false 199 (some (1 : ℚ)) _ (by norm_num)]
      simp
    rw [ffill_go, ffill_go_replicate_some]
  · rw [hnc]
    norm_num

/-- C5 (amended): for every price series with at least 200 points, all
present close prices strictly positive, a missing fraction of at most 5%,
and a present first value, the validator succeeds and the series it leaves
behind has no missing values; present values are never altered (each gap
receives the most recent valid prior value).  The amendment adds the
present-first-value hypothesis: a leading missing value has no prior value
to inherit and survives the forward fill, as the counterexample shows. -/
theorem validator_fills (close : List (Option ℚ))
    (hlen : 200 ≤ close.length)
    (hpos : ∀ x ∈ close, ∀ v, x = some v → 0 < v)
    (hmiss : nan_count close * 100 ≤ 5 * close.length)
    (v0 : ℚ) (hfirst : close[0]? = some (some v0)) :
    ∃ out, validate_data close = .ok out ∧
      nan_count out = 0 ∧
      out.length = close.length ∧
      ∀ (i : ℕ) (v : ℚ), close[i]? = some (some v) → out[i]? = some (some v) := by
  have hany : close.any (fun x => match x with
      | some v => decide (v ≤ 0)
      | none => false) = false := by
    rw [List.any_eq_false]
    intro x hx
    cases x with
    | none => simp
    | some v =>
      have := hpos (some v) hx v rfl
      simp only [decide_eq_true_eq]
      exact not_le.mpr this
  have hnotlen : ¬ close.length < 200 := by omega
  have hnotmiss : ¬ 5 * close.length < nan_count close * 100 := by omega
  rw [validate_data, if_neg hnotlen,
    if_neg (by rw [hany]; exact Bool.false_ne_true), if_neg hnotmiss]
  by_cases hnc : 0 < nan_count close
  · rw [if_pos hnc]
    obtain ⟨rest, hrest⟩ : ∃ rest, close = some v0 :: rest := by
      cases close with
      | nil => simp at hfirst
      | cons x xs =>
        simp only [List.getElem?_cons_zero, Option.some_inj] at hfirst
        exact ⟨xs, by rw [hfirst]⟩
    refine ⟨ffill_go none close, rfl, ?_, length_ffill_go none close,
      fun i v h => ffill_go_getElem_some none close i v h⟩
    rw [hrest]
    show nan_count (some v0 :: ffill_go (some v0) rest) = 0
    simpa [nan_count, List.countP_cons] using ffill_go_nan_count_some v0 rest
  · rw [if_neg hnc]
    exact ⟨close, rfl, by omega, rfl, fun i v (h : close[i]? = some (some v)) => h⟩

/-- C5 witness: concrete instance of `validator_fills` on a 200-point
series whose second value is missing; the validator succeeds and fills the
gap with the prior value. -/
theorem validator_fills_witness :
    200 ≤ (some 1 :: none :: List.replicate 198 (some (1 : ℚ))).length ∧
    nan_count (some 1 :: none :: List.replicate 198 (some (1 : ℚ))) * 100 ≤
      5 * (some 1 :: none :: List.replicate 198 (some (1 : ℚ))).length ∧
    validate_data (some 1 :: none :: List.replicate 198 (some (1 : ℚ))) =
      .ok (some 1 :: some 1 :: List.replicate 198 (some (1 : ℚ))) ∧
    nan_count (some 1 :: some 1 :: List.replicate 198 (some (1 : ℚ))) = 0 := by
  have hlen : (some 1 :: none :: List.replicate 198 (some (1 : ℚ))).length = 200 := by
    simp only [List.length_cons, List.length_replicate]
  have hnc : nan_count (some 1 :: none :: List.replicate 198 (some (1 : ℚ))) = 1 := by
    simp [nan_count, List.countP_cons, countP_replicate_false]
  have hmiss : nan_count (some 1 :: none :: List.replicate 198 (some (1 : ℚ))) * 100 ≤
      5 * (some 1 :: none :: List.replicate 198 (some (1 : ℚ))).length := by
    rw [hnc, hlen]
    norm_num
  have hpos : ∀ x ∈ (some 1 :: none :: List.replicate 198 (some (1 : ℚ))),
      ∀ v, x = some v → 0 < v := by
    intro x hx v hv
    subst hv
    simp only [List.mem_cons, List.mem_replicate] at hx
    rcases hx with h | h | ⟨-, h⟩
    · rw [Option.some_inj] at h
      rw [h]
      norm_num
    · exact absurd h (by simp)
    · rw [Option.some_inj] at h
      rw [h]
      norm_num
  obtain ⟨out, hok, hnc0, -, -⟩ := validator_fills
    (some 1 :: none :: List.replicate 198 (some (1 : ℚ)))
    (by rw [hlen]) hpos hmiss 1 (by simp only [List.getElem?_cons_zero])
  have hval : validate_data (some 1 :: none :: List.replicate 198 (some (1 : ℚ))) =
      .ok (some 1 :: some 1 :: List.replicate 198 (some (1 : ℚ))) := by
    rw [validate_data]
    rw [if_neg (by rw [hlen]; norm_num), if_neg ?hany,
      if_neg (by rw [hnc, hlen]; norm_num), if_pos (by rw [hnc]; norm_num)]
    case hany =>
      simp only [List.any_cons, Bool.or_eq_true, not_or]
      refine ⟨by norm_num, by simp, ?_⟩
      rw [any_replicate_false 198 (some (1 : ℚ)) _ (by norm_num)]
      simp
    have h1 : ffill_go none (some 1 :: none :: List.replicate 198 (some (1 : ℚ))) =
        some 1 :: some 1 :: ffill_go (some 1) (List.replicate 198 (some (1 : ℚ))) := rfl
    rw [h1, ffill_go_replicate_some]
  have hout : out = some 1 :: some 1 :: List.replicate 198 (some (1 : ℚ)) :=
    Except.ok.inj (hok.symm.trans hval)
  rw [hout] at hnc0
  exact ⟨by rw [hlen], hmiss, hval, hnc0⟩

/-! ### The Performance Analyzer (src/performance.py) -/

/-- The valid (non-NaN) entries of a series; pandas reductions
(`mean`, `std`, `min`) skip NaN entries (`skipna` default). -/
def validVals (xs : List (Option ℚ)) : List ℚ := xs.filterMap id

/-- pandas `Series.mean()`: mean of the valid entries, NaN when there are
none. -/
def nanMean (xs : List (Option ℚ)) : Option ℚ :=
  if (validVals xs).length = 0 then none
  else some ((validVals xs).sum / (validVals xs).length)

/-- Sample variance with `ddof = 1` (the pandas `std` default), on the
valid values. -/
def sampleVar (v : List ℚ) : ℚ :=
  (v.map (fun x => (x - v.sum / v.length) ^ 2)).sum / ((v.length : ℚ) - 1)

/-- pandas `Series.std()`: sample standard deviation (`ddof = 1`) of the
valid entries; NaN when fewer than two valid entries exist (zero degrees
of freedom). -/
noncomputable def nanStd (xs : List (Option ℚ)) : Option ℝ :=
  if (validVals xs).length < 2 then none
  else some (Real.sqrt ((sampleVar (validVals xs) : ℚ) : ℝ))

/-- pandas `Series.cummax()` (src/performance.py line 58): running maximum
over the valid entries; NaN entries stay NaN but do not reset the
maximum. -/
def cummaxSkip (m : Option ℚ) : List (Option ℚ) → List (Option ℚ)
  | [] => []
  | none :: xs => none :: cummaxSkip m xs
  | some v :: xs =>
    let m2 := match m with
      | none => v
      | some mv => max mv v
    some m2 :: cummaxSkip (some m2) xs

/-- pandas `Series.min()`: minimum of the valid entries, NaN when there
are none. -/
def nanMin (xs : List (Option ℚ)) : Option ℚ := (validVals xs).min?

/-- Cast a modelled float to the reals. -/
def ocast : Option ℚ → Option ℝ := Option.map (fun q => (q : ℝ))

/-- NaN-propagating subtraction on real-valued modelled floats. -/
noncomputable def osubR : Option ℝ → Option ℝ → Option ℝ
  | some a, some b => some (a - b)
  | _, _ => none

/-- NaN-propagating division on real-valued modelled floats. -/
noncomputable def odivR : Option ℝ → Option ℝ → Option ℝ
  | some a, some b => some (a / b)
  | _, _ => none

/-- The record returned by
`PerformanceAnalyzer._calculate_required_metrics`
(src/performance.py lines 62-68). -/
structure RequiredMetrics where
  total_return : Option ℚ
  annual_return : Option ℚ
  sharpe_ratio : Option ℝ
  max_drawdown : Option ℚ
  volatility : Option ℝ

/-- The `PerformanceAnalyzer` object state (src/performance.py lines
10-21): a `TradingConfig` built from `initial_cash` and `commission`
(risk-free rate left at its 0.02 default) and the mutable `stake`.  The
optional-metric selection only adds extra report entries and is not
referenced by any claim, so it is not modelled. -/
structure PerformanceAnalyzer where
  config : TradingConfig
  stake : ℚ

/-- `PerformanceAnalyzer.__init__` (src/performance.py lines 10-21). -/
def mkPerformanceAnalyzer (initial_cash stake commission : ℚ) :
    PerformanceAnalyzer :=
  { config := { initial_capital := initial_cash,
                transaction_cost_bps := commission * 10000 }
    stake := stake }

/-- `PerformanceAnalyzer._calculate_required_metrics`
(src/performance.py lines 34-68).  `total_return` reads the last
portfolio value (`iloc[-1]`; the `analyze` caller guarantees a non-empty
portfolio, on an empty one this model yields NaN where the code would
raise an IndexError).  The Python guard `if volatility != 0` is `True`
when volatility is NaN, so a NaN volatility flows into the division and
produces a NaN Sharpe ratio, exactly as in IEEE arithmetic. -/
noncomputable def calculate_required_metrics (cfg : TradingConfig)
    (portfolio : Portfolio) (scaled_returns : List (Option ℚ)) :
    RequiredMetrics :=
  let portfolio_value := portfolio.portfolio_value
  let total_return := (portfolio_value.getLast?.bind id).map
    (fun v => v / cfg.initial_capital - 1)
  let annual_return := (nanMean scaled_returns).map (fun m => m * 252)
  let volatility := (nanStd scaled_returns).map (fun s => s * Real.sqrt 252)
  let sharpe := if volatility ≠ some 0
    then odivR (osubR (ocast annual_return) (some (cfg.risk_free_rate : ℝ)))
      volatility
    else some 0
  let rolling_max := cummaxSkip none portfolio_value
  let drawdown := List.zipWith (fun pv rm => match pv, rm with
    | some a, some b => some ((a - b) / b)
    | _, _ => none) portfolio_value rolling_max
  let max_drawdown := nanMin drawdown
  { total_return := total_return
    annual_return := annual_return
    sharpe_ratio := sharpe
    max_drawdown := max_drawdown
    volatility := volatility }

/-- The scaled returns `returns * (stake / initial_capital)` of
`PerformanceAnalyzer.analyze` (src/performance.py line 118). -/
def scaled_returns_of (a : PerformanceAnalyzer) (portfolio : Portfolio) :
    List (Option ℚ) :=
  portfolio.strategy_returns.map
    (Option.map (fun r => r * (a.stake / a.config.initial_capital)))

/-- The metrics computed by a successful `PerformanceAnalyzer.analyze`
call, restricted to the always-computed required set. -/
noncomputable def analyzeMetrics (a : PerformanceAnalyzer)
    (portfolio : Portfolio) : RequiredMetrics :=
  calculate_required_metrics a.config portfolio (scaled_returns_of a portfolio)

/-- `PerformanceAnalyzer.analyze` (src/performance.py lines 111-129):
fails on an empty portfolio (`portfolio.empty`, i.e. zero rows), otherwise
returns the required metrics of the stake-scaled returns. -/
noncomputable def analyze (a : PerformanceAnalyzer) (portfolio : Portfolio) :
    Except String RequiredMetrics :=
  if portfolio.strategy_returns.isEmpty then .error "Empty portfolio data"
  else .ok (analyzeMetrics a portfolio)

/-- `PerformanceAnalyzer.compare_stakes` (src/performance.py lines
131-141).  The Python method mutates `self.stake` before each `analyze`
call; the model threads the analyzer state explicitly and returns it
together with the result (the state survives even when `analyze` raises,
exactly as the object state does in Python). -/
noncomputable def compare_stakes (a : PerformanceAnalyzer)
    (portfolio : Portfolio) :
    List ℚ → PerformanceAnalyzer × Except String (List (RequiredMetrics × ℚ))
  | [] => (a, .ok [])
  | s :: rest =>
    let a2 := { a with stake := s }
    match analyze a2 portfolio with
    | .error e => (a2, .error e)
    | .ok m =>
      match compare_stakes a2 portfolio rest with
      | (aF, .ok ms) => (aF, .ok ((m, s) :: ms))
      | (aF, .error e) => (aF, .error e)

/-! ### Analyzer helper lemmas -/

theorem sum_map_mul_right (l : List ℚ) (k : ℚ) :
    (l.map (fun x => x * k)).sum = l.sum * k := by
  induction l with
  | nil => simp
  | cons x xs ih => simp [ih, add_mul]

theorem sum_map_fn_mul_right (l : List ℚ) (f : ℚ → ℚ) (k : ℚ) :
    (l.map (fun x => f x * k)).sum = (l.map f).sum * k := by
  induction l with
  | nil => simp
  | cons x xs ih => simp [ih, add_mul]

theorem validVals_map_scale (k : ℚ) (xs : List (Option ℚ)) :
    validVals (xs.map (Option.map (fun r => r * k))) =
      (validVals xs).map (fun r => r * k) := by
  induction xs with
  | nil => rfl
  | cons x xs ih => cases x <;> simp [validVals, ih] <;>
      simpa [validVals] using ih

theorem nanMean_scale (k : ℚ) (xs : List (Option ℚ)) :
    nanMean (xs.map (Option.map (fun r => r * k))) =
      (nanMean xs).map (fun m => m * k) := by
  unfold nanMean
  rw [validVals_map_scale]
  by_cases h : (validVals xs).length = 0
  · rw [if_pos (by simp [h]), if_pos h]
    rfl
  · rw [if_neg (by simp [h]), if_neg h]
    rw [List.length_map, sum_map_mul_right]
    have he : (validVals xs).sum * k / ((validVals xs).length : ℚ) =
        (validVals xs).sum / ((validVals xs).length : ℚ) * k := by
      ring
    rw [he]
    rfl

theorem sampleVar_scale (k : ℚ) (v : List ℚ) :
    sampleVar (v.map (fun r => r * k)) = sampleVar v * k ^ 2 := by
  unfold sampleVar
  rw [List.map_map, List.length_map, sum_map_mul_right]
  have hmap : (v.map ((fun x => (x - v.sum * k / v.length) ^ 2) ∘ fun r => r * k)) =
      v.map (fun x => (x - v.sum / v.length) ^ 2 * k ^ 2) := by
    apply List.map_congr_left
    intro x _
    simp only [Function.comp_apply]
    ring
  rw [hmap, sum_map_fn_mul_right]
  ring

theorem nanStd_scale_abs (k : ℚ) (xs : List (Option ℚ)) :
    nanStd (xs.map (Option.map (fun r => r * k))) =
      (nanStd xs).map (fun s => s * |(k : ℝ)|) := by
  unfold nanStd
  rw [validVals_map_scale]
  by_cases h : (validVals xs).length < 2
  · rw [if_pos (by simpa using h), if_pos h]
    rfl
  · rw [if_neg (by simpa using h), if_neg h]
    show some _ = some _
    rw [Option.some_inj, sampleVar_scale]
    push_cast
    rw [Real.sqrt_mul' _ (by positivity : (0 : ℝ) ≤ (k : ℝ) ^ 2),
      Real.sqrt_sq_eq_abs]

/-! ### Claim C6: Sharpe ratio at zero volatility -/

theorem analyzeMetrics_sharpe (a : PerformanceAnalyzer) (p : Portfolio) :
    (analyzeMetrics a p).sharpe_ratio =
      if ((nanStd (scaled_returns_of a p)).map
          (fun s => s * Real.sqrt 252)) ≠ some 0
      then odivR (osubR (ocast ((nanMean (scaled_returns_of a p)).map
          (fun m => m * 252))) (some (a.config.risk_free_rate : ℝ)))
        ((nanStd (scaled_returns_of a p)).map (fun s => s * Real.sqrt 252))
      else some 0 := rfl

theorem analyzeMetrics_annual_return (a : PerformanceAnalyzer) (p : Portfolio) :
    (analyzeMetrics a p).annual_return =
      (nanMean (scaled_returns_of a p)).map (fun m => m * 252) := rfl

theorem analyzeMetrics_volatility (a : PerformanceAnalyzer) (p : Portfolio) :
    (analyzeMetrics a p).volatility =
      (nanStd (scaled_returns_of a p)).map (fun s => s * Real.sqrt 252) := rfl

theorem analyzeMetrics_total_return (a : PerformanceAnalyzer) (p : Portfolio) :
    (analyzeMetrics a p).total_return =
      (p.portfolio_value.getLast?.bind id).map
        (fun v => v / a.config.initial_capital - 1) := rfl

theorem analyzeMetrics_max_drawdown (a : PerformanceAnalyzer) (p : Portfolio) :
    (analyzeMetrics a p).max_drawdown =
      nanMin (List.zipWith (fun pv rm => match pv, rm with
        | some a, some b => some ((a - b) / b)
        | _, _ => none) p.portfolio_value (cummaxSkip none p.portfolio_value)) :=
  rfl

/-- C6 (confirmed): when the sample standard deviation of the scaled
returns is exactly 0, the volatility is exactly 0 and
`_calculate_required_metrics` takes the `else 0` branch, so the Sharpe
ratio is exactly 0 (no division happens); otherwise (including the NaN
standard deviation of a single-period portfolio, for which the Python
guard `volatility != 0` is True) the Sharpe ratio is exactly
`(annual_return - risk_free_rate) / volatility` in NaN-propagating
arithmetic. -/
theorem sharpe_zero_volatility (a : PerformanceAnalyzer) (p : Portfolio) :
    (nanStd (scaled_returns_of a p) = some 0 →
      (analyzeMetrics a p).sharpe_ratio = some 0) ∧
    (nanStd (scaled_returns_of a p) ≠ some 0 →
      (analyzeMetrics a p).sharpe_ratio =
        odivR (osubR (ocast (analyzeMetrics a p).annual_return)
          (some (a.config.risk_free_rate : ℝ)))
          (analyzeMetrics a p).volatility) := by
  constructor
  · intro h
    rw [analyzeMetrics_sharpe, h]
    simp
  · intro h
    rw [analyzeMetrics_sharpe, analyzeMetrics_annual_return,
      analyzeMetrics_volatility]
    rcases hs : nanStd (scaled_returns_of a p) with _ | x
    · rw [if_pos (by simp)]
    · have hx : x ≠ 0 := by
        intro hc
        rw [hc] at hs
        exact h hs
      have hne : x * Real.sqrt 252 ≠ 0 :=
        mul_ne_zero hx (ne_of_gt (Real.sqrt_pos.mpr (by norm_num)))
      rw [if_pos (by simp [hne])]

/-- C6 witness: a two-period zero-return portfolio has zero standard
deviation and Sharpe ratio exactly 0. -/
theorem sharpe_zero_volatility_witness :
    nanStd (scaled_returns_of (mkPerformanceAnalyzer 100000 50000 (1/1000))
      ⟨[], [], [], [], [some 0, some 0], []⟩) = some 0 ∧
    (analyzeMetrics (mkPerformanceAnalyzer 100000 50000 (1/1000))
      ⟨[], [], [], [], [some 0, some 0], []⟩).sharpe_ratio = some 0 := by
  have h : nanStd (scaled_returns_of (mkPerformanceAnalyzer 100000 50000 (1/1000))
      ⟨[], [], [], [], [some 0, some 0], []⟩) = some 0 := by
    have hval : validVals (scaled_returns_of
        (mkPerformanceAnalyzer 100000 50000 (1/1000))
        ⟨[], [], [], [], [some 0, some 0], []⟩) = [0, 0] := by
      simp [scaled_returns_of, validVals]
    rw [nanStd, hval]
    rw [if_neg (by norm_num)]
    have hv : sampleVar [0, 0] = 0 := by
      simp [sampleVar]
    rw [hv]
    simp [Real.sqrt_zero]
  exact ⟨h, (sharpe_zero_volatility (mkPerformanceAnalyzer 100000 50000 (1/1000))
    ⟨[], [], [], [], [some 0, some 0], []⟩).1 h⟩

/-! ### Claim C7: stake scaling of the required metrics -/

/-- C7 (confirmed, for nonnegative stakes): `total_return` and
`max_drawdown` are computed from the unscaled portfolio value and are
identical for any two stakes, while `annual_return` and `volatility` are
computed from the scaled returns `r * (stake/initial_capital)` and scale
proportionally with the stake (stated without division as
`s2 * m(s1) = s1 * m(s2)`).  The nonnegativity hypotheses reflect that a
stake is a monetary amount; for stakes of opposite signs, the standard
deviation would scale with `|stake|` rather than `stake`. -/
theorem stake_scaling (p : Portfolio) (cfg : TradingConfig) (s1 s2 : ℚ)
    (h1 : 0 ≤ s1) (h2 : 0 ≤ s2) :
    (analyzeMetrics ⟨cfg, s1⟩ p).total_return =
      (analyzeMetrics ⟨cfg, s2⟩ p).total_return ∧
    (analyzeMetrics ⟨cfg, s1⟩ p).max_drawdown =
      (analyzeMetrics ⟨cfg, s2⟩ p).max_drawdown ∧
    ((analyzeMetrics ⟨cfg, s1⟩ p).annual_return).map (fun x => s2 * x) =
      ((analyzeMetrics ⟨cfg, s2⟩ p).annual_return).map (fun x => s1 * x) ∧
    ((analyzeMetrics ⟨cfg, s1⟩ p).volatility).map (fun x => (s2 : ℝ) * x) =
      ((analyzeMetrics ⟨cfg, s2⟩ p).volatility).map (fun x => (s1 : ℝ) * x) := by
  have hscaled : ∀ s : ℚ, scaled_returns_of ⟨cfg, s⟩ p =
      p.strategy_returns.map
        (Option.map (fun r => r * (s / cfg.initial_capital))) := fun s => rfl
  refine ⟨rfl, rfl, ?_, ?_⟩
  · rw [analyzeMetrics_annual_return, analyzeMetrics_annual_return,
      hscaled, hscaled, nanMean_scale, nanMean_scale]
    rcases nanMean p.strategy_returns with _ | m
    · rfl
    · show some _ = some _
      rw [Option.some_inj]
      ring
  · rw [analyzeMetrics_volatility, analyzeMetrics_volatility,
      hscaled, hscaled, nanStd_scale_abs, nanStd_scale_abs]
    rcases nanStd p.strategy_returns with _ | sd
    · rfl
    · show some _ = some _
      rw [Option.some_inj]
      have hc1 : |((s1 / cfg.initial_capital : ℚ) : ℝ)| =
          (s1 : ℝ) / |(cfg.initial_capital : ℝ)| := by
        push_cast
        rw [abs_div, abs_of_nonneg (by exact_mod_cast h1)]
      have hc2 : |((s2 / cfg.initial_capital : ℚ) : ℝ)| =
          (s2 : ℝ) / |(cfg.initial_capital : ℝ)| := by
        push_cast
        rw [abs_div, abs_of_nonneg (by exact_mod_cast h2)]
      rw [hc1, hc2]
      ring

/-- C7 witness: concrete instance of `stake_scaling` at stakes 2 and 3 on
a two-period portfolio. -/
theorem stake_scaling_witness :
    (0 : ℚ) ≤ 2 ∧ (0 : ℚ) ≤ 3 ∧
    ((analyzeMetrics ⟨{}, 2⟩ ⟨[], [], [], [], [some 1, some 3],
        [some 100000, some 101000]⟩).total_return =
      (analyzeMetrics ⟨{}, 3⟩ ⟨[], [], [], [], [some 1, some 3],
        [some 100000, some 101000]⟩).total_return) ∧
    ((analyzeMetrics ⟨{}, 2⟩ ⟨[], [], [], [], [some 1, some 3],
        [some 100000, some 101000]⟩).max_drawdown =
      (analyzeMetrics ⟨{}, 3⟩ ⟨[], [], [], [], [some 1, some 3],
        [some 100000, some 101000]⟩).max_drawdown) ∧
    (((analyzeMetrics ⟨{}, 2⟩ ⟨[], [], [], [], [some 1, some 3],
        [some 100000, some 101000]⟩).annual_return).map (fun x => 3 * x) =
      ((analyzeMetrics ⟨{}, 3⟩ ⟨[], [], [], [], [some 1, some 3],
        [some 100000, some 101000]⟩).annual_return).map (fun x => 2 * x)) ∧
    (((analyzeMetrics ⟨{}, 2⟩ ⟨[], [], [], [], [some 1, some 3],
        [some 100000, some 101000]⟩).volatility).map (fun x => ((3 : ℚ) : ℝ) * x) =
      ((analyzeMetrics ⟨{}, 3⟩ ⟨[], [], [], [], [some 1, some 3],
        [some 100000, some 101000]⟩).volatility).map (fun x => ((2 : ℚ) : ℝ) * x)) := by
  have h := stake_scaling
    ⟨[], [], [], [], [some 1, some 3], [some 100000, some 101000]⟩ {} 2 3
    (by norm_num) (by norm_num)
  exact ⟨by norm_num, by norm_num, h.1, h.2.1, h.2.2.1, h.2.2.2⟩

/-! ### Claim C10: compare_stakes overwrites the stored stake -/

/-- C10 (confirmed): a `compare_stakes` call over a non-empty stake list
on a portfolio accepted by `analyze` leaves the analyzer's stored stake
equal to the last stake of the list, so every subsequent `analyze` call
behaves as if the analyzer had been constructed with that stake rather
than the one given at construction. -/
theorem compare_stakes_cons (b : PerformanceAnalyzer) (p : Portfolio)
    (s : ℚ) (rest : List ℚ) :
    compare_stakes b p (s :: rest) =
      match analyze { b with stake := s } p with
      | .error e => ({ b with stake := s }, .error e)
      | .ok m =>
        match compare_stakes { b with stake := s } p rest with
        | (aF, .ok ms) => (aF, .ok ((m, s) :: ms))
        | (aF, .error e) => (aF, .error e) := rfl

theorem compare_stakes_overwrites (a : PerformanceAnalyzer) (p : Portfolio)
    (stakes : List ℚ) (hne : stakes ≠ []) (hp : p.strategy_returns ≠ []) :
    (compare_stakes a p stakes).1 = { a with stake := stakes.getLast hne } ∧
    ∀ q : Portfolio, analyze (compare_stakes a p stakes).1 q =
      analyze { a with stake := stakes.getLast hne } q := by
  have main : ∀ (l : List ℚ) (hl : l ≠ []) (b : PerformanceAnalyzer),
      (compare_stakes b p l).1 = { b with stake := l.getLast hl } := by
    intro l
    induction l with
    | nil => intro hl; exact absurd rfl hl
    | cons s rest ih =>
      intro hl b
      have hana : analyze { b with stake := s } p =
          .ok (analyzeMetrics { b with stake := s } p) := by
        rw [analyze, if_neg (by simp [List.isEmpty_eq_false.mpr hp])]
      cases rest with
      | nil =>
        rw [compare_stakes_cons]
        simp only [hana, compare_stakes]
        simp
      | cons s2 rest2 =>
        have ih2 := ih (by simp) { b with stake := s }
        rw [compare_stakes_cons]
        simp only [hana]
        rcases hrec : compare_stakes { b with stake := s } p (s2 :: rest2) with
          ⟨aF, res⟩
        rw [hrec] at ih2
        rw [List.getLast_cons (by simp)]
        cases res with
        | ok ms => simpa using ih2
        | error e => simpa using ih2
  refine ⟨main stakes hne a, fun q => by rw [main stakes hne a]⟩

/-- C10 witness: concrete instance of `compare_stakes_overwrites` with
stakes `[1, 2, 3]`: the analyzer constructed with stake 50000 ends up
with stake 3. -/
theorem compare_stakes_overwrites_witness :
    ([1, 2, 3] : List ℚ) ≠ [] ∧
    (Portfolio.mk [] [] [] [] [some 0] []).strategy_returns ≠ [] ∧
    (compare_stakes (mkPerformanceAnalyzer 100000 50000 (1/1000))
      (Portfolio.mk [] [] [] [] [some 0] []) [1, 2, 3]).1 =
      { mkPerformanceAnalyzer 100000 50000 (1/1000) with stake := 3 } := by
  have h := compare_stakes_overwrites (mkPerformanceAnalyzer 100000 50000 (1/1000))
    (Portfolio.mk [] [] [] [] [some 0] []) [1, 2, 3] (by simp) (by simp)
  exact ⟨by simp, by simp, h.1⟩

/-! ### The Parameter Sweep Orchestrator (src/backtester.py lines 31-67) -/

/-- pandas `DataFrame.sort_values(by, ascending=False)` as called at
src/backtester.py line 67, with the default `kind='quicksort'`.  pandas
`nargsort` reverses the key column, argsorts it ascending with the numpy
kernel, and reverses the resulting indexer.  The library only guarantees
the result up to tie order: the output is a permutation of the input that
is sorted descending by the key, and only for arrays of at most 16
elements — where numpy's introsort is a plain stable insertion sort
(`SMALL_QUICKSORT = 15`) — is the equal-key order pinned down (original
order, via the double reversal around the stable kernel).  This model
instantiates the kernel with the stable insertion sort, so it is exact
for tables of at most 16 rows and correct only up to tie order beyond
that (numpy's partitioning permutes equal keys there); accordingly,
tie-order conclusions are asserted only under an explicit 16-row bound
(`backtest_table`), while the permutation and sortedness conclusions
hold for every correct kernel and hence for the program at every size. -/
def sort_values_desc {α : Type} (key : α → ℚ) (l : List α) : List α :=
  (List.insertionSort (fun x y => key x ≤ key y) l.reverse).reverse

/-- The `results` list accumulated by the `try/except` loop of
`Backtester.run_backtest` (src/backtester.py lines 35-53): one
`(params, metrics)` row per combination whose pipeline run succeeded
(`metrics.update(params)`, line 48); a combination whose run raises is
skipped (`except ... continue`, lines 51-53). -/
def survivors {P M : Type} (runCombo : P → Except String M)
    (grid : List P) : List (P × M) :=
  grid.filterMap (fun params =>
    match runCombo params with
    | .ok m => some (params, m)
    | .error _ => none)

/-- `Backtester.run_backtest` (src/backtester.py lines 31-67).  The body
of the per-combination `try` block — strategy construction, the network
data fetch inside `load_data`, `execute_trades` and `analyzer.analyze` —
crosses the external data-source boundary (spec §6) and is polymorphic in
the strategy, so it is abstracted as `runCombo`, mapping a parameter
combination to a metrics row or a raised exception; `sharpeOf` reads the
row's `sharpe_ratio` column (a number for every surviving row).  With no
successes the loop yields `results == []` and an empty table is returned
(lines 56-57); otherwise the table is sorted descending by sharpe
(line 67). -/
def run_backtest {P M : Type} (runCombo : P → Except String M)
    (sharpeOf : M → ℚ) (grid : List P) : List (P × M) :=
  let results := survivors runCombo grid
  if results.isEmpty then []
  else sort_values_desc (fun row => sharpeOf row.2) results

/-! ### Sorting helper lemmas -/

theorem filter_orderedInsert {α : Type} (key : α → ℚ) (q : ℚ) (x : α)
    (l : List α) :
    (List.orderedInsert (fun a b => key a ≤ key b) x l).filter
        (fun r => decide (key r = q)) =
      if key x = q then x :: l.filter (fun r => decide (key r = q))
      else l.filter (fun r => decide (key r = q)) := by
  induction l with
  | nil =>
    by_cases hx : key x = q <;> simp [List.orderedInsert, hx]
  | cons y ys ih =>
    simp only [List.orderedInsert]
    by_cases hle : key x ≤ key y
    · rw [if_pos hle]
      by_cases hx : key x = q <;>
        by_cases hy : key y = q <;>
          simp [List.filter_cons, hx, hy]
    · rw [if_neg hle]
      have hlt : key y < key x := lt_of_not_le hle
      by_cases hx : key x = q
      · have hy : ¬ key y = q := fun hc => (ne_of_lt hlt) (hc.trans hx.symm)
        rw [List.filter_cons, if_neg (by simp [hy]), ih, if_pos hx, if_pos hx,
          List.filter_cons, if_neg (by simp [hy])]
      · rw [List.filter_cons, ih, if_neg hx, if_neg hx, List.filter_cons]

theorem filter_insertionSort {α : Type} (key : α → ℚ) (q : ℚ) (l : List α) :
    (List.insertionSort (fun a b => key a ≤ key b) l).filter
        (fun r => decide (key r = q)) =
      l.filter (fun r => decide (key r = q)) := by
  induction l with
  | nil => rfl
  | cons x xs ih =>
    show (List.orderedInsert _ x _).filter _ = _
    rw [filter_orderedInsert]
    by_cases hx : key x = q <;> simp [List.filter, hx, ih]

theorem sort_values_desc_perm {α : Type} (key : α → ℚ) (l : List α) :
    List.Perm (sort_values_desc key l) l := by
  unfold sort_values_desc
  exact (List.reverse_perm _).trans
    ((List.perm_insertionSort _ _).trans (List.reverse_perm l))

theorem sort_values_desc_sorted {α : Type} (key : α → ℚ) (l : List α) :
    List.Sorted (fun r1 r2 => key r2 ≤ key r1) (sort_values_desc key l) := by
  haveI ht : IsTotal α (fun x y => key x ≤ key y) :=
    ⟨fun a b => le_total (key a) (key b)⟩
  haveI htr : IsTrans α (fun x y => key x ≤ key y) :=
    ⟨fun a b c hab hbc => le_trans hab hbc⟩
  have hs : List.Sorted (fun x y => key x ≤ key y)
      (List.insertionSort (fun x y => key x ≤ key y) l.reverse) :=
    List.sorted_insertionSort _ _
  unfold sort_values_desc
  unfold List.Sorted at hs ⊢
  rw [List.pairwise_reverse]
  exact hs

theorem sort_values_desc_stable {α : Type} (key : α → ℚ) (l : List α)
    (q : ℚ) :
    (sort_values_desc key l).filter (fun r => decide (key r = q)) =
      l.filter (fun r => decide (key r = q)) := by
  unfold sort_values_desc
  rw [List.filter_reverse, filter_insertionSort, List.filter_reverse,
    List.reverse_reverse]

theorem survivors_length {P M : Type} (runCombo : P → Except String M)
    (grid : List P) :
    (survivors runCombo grid).length =
      grid.countP (fun params => (runCombo params).toOption.isSome) := by
  unfold survivors
  rw [List.length_filterMap_eq_countP]
  apply List.countP_congr
  intro params _
  cases h : runCombo params <;> simp [h, Except.toOption]

theorem survivors_eq_nil_of_all_fail {P M : Type}
    (runCombo : P → Except String M) (grid : List P)
    (h : ∀ params ∈ grid, (runCombo params).toOption = none) :
    survivors runCombo grid = [] := by
  unfold survivors
  rw [List.filterMap_eq_nil_iff]
  intro params hmem
  have := h params hmem
  cases hc : runCombo params
  · rfl
  · rw [hc] at this
    simp [Except.toOption] at this

theorem run_backtest_perm {P M : Type} (runCombo : P → Except String M)
    (sharpeOf : M → ℚ) (grid : List P) :
    List.Perm (run_backtest runCombo sharpeOf grid)
      (survivors runCombo grid) := by
  unfold run_backtest
  by_cases h : (survivors runCombo grid).isEmpty
  · rw [if_pos h]
    rw [List.isEmpty_iff] at h
    rw [h]
  · rw [if_neg h]
    exact sort_values_desc_perm _ _

/-! ### Claim C8: the ranked result table -/

/-- C8 (code bug in the tie-order clause): the output table of
`run_backtest` holds exactly one row per surviving combination, each row
carrying its parameter combination alongside its metrics (it is a
permutation of the survivor list), and it is sorted descending by
sharpe_ratio — both true of the program for every grid, since any correct
argsort kernel yields them.  The stable-tie clause, however, is only
guaranteed by the program for tables of at most 16 rows, where numpy's
default `quicksort` kernel is a plain stable insertion sort
(`SMALL_QUICKSORT = 15`); the spec (§4.4, §5) demands original-grid-order
ties for every grid, which would need `kind='stable'` — for 17 or more
tied rows numpy's introsort partition swaps equal-key entries, so the
claim's universal tie clause fails on the code.  The third conjunct is
therefore asserted only under the 16-row bound within which the sort
model is exact (the bound scopes the assertion; the stable model proves
the unbounded statement, which the program does not honour). -/
theorem backtest_table {P M : Type} (runCombo : P → Except String M)
    (sharpeOf : M → ℚ) (grid : List P) :
    List.Perm (run_backtest runCombo sharpeOf grid)
      (survivors runCombo grid) ∧
    List.Sorted (fun r1 r2 => sharpeOf r2.2 ≤ sharpeOf r1.2)
      (run_backtest runCombo sharpeOf grid) ∧
    ((survivors runCombo grid).length ≤ 16 →
      ∀ q : ℚ, (run_backtest runCombo sharpeOf grid).filter
          (fun r => decide (sharpeOf r.2 = q)) =
        (survivors runCombo grid).filter (fun r => decide (sharpeOf r.2 = q))) := by
  refine ⟨run_backtest_perm _ _ _, ?_, ?_⟩
  · unfold run_backtest
    by_cases h : (survivors runCombo grid).isEmpty
    · rw [if_pos h]
      exact List.sorted_nil
    · rw [if_neg h]
      exact sort_values_desc_sorted (fun row : P × M => sharpeOf row.2) _
  · intro hsmall q
    unfold run_backtest
    by_cases h : (survivors runCombo grid).isEmpty
    · rw [if_pos h]
      rw [List.isEmpty_iff] at h
      rw [h]
    · rw [if_neg h]
      exact sort_values_desc_stable (fun row : P × M => sharpeOf row.2) _ q

/-- C8 witness: a two-combination grid with equal sharpe values is a
table of at most 16 rows, and its tied rows keep the grid order. -/
theorem backtest_table_witness :
    (survivors (fun _ : ℕ => (.ok 0 : Except String ℚ)) [0, 1]).length ≤ 16 ∧
    (run_backtest (fun _ : ℕ => (.ok 0 : Except String ℚ)) id [0, 1]).filter
        (fun r => decide (id r.2 = (0 : ℚ))) =
      (survivors (fun _ : ℕ => (.ok 0 : Except String ℚ)) [0, 1]).filter
        (fun r => decide (id r.2 = (0 : ℚ))) :=
  ⟨by simp [survivors],
   (backtest_table (fun _ : ℕ => (.ok 0 : Except String ℚ)) id [0, 1]).2.2
     (by simp [survivors]) 0⟩

/-! ### Claim C9: per-combination fault isolation -/

/-- C9 (confirmed): the output table has exactly one row per successful
combination — a combination whose pipeline raises is excluded while all
others are still processed — and when every combination fails the sweep
returns the empty table instead of raising (the model function
`run_backtest` is total: every failure is absorbed by the
`except/continue` of src/backtester.py lines 51-53). -/
theorem backtest_fault_isolation {P M : Type} (runCombo : P → Except String M)
    (sharpeOf : M → ℚ) (grid : List P) :
    (run_backtest runCombo sharpeOf grid).length =
      grid.countP (fun params => (runCombo params).toOption.isSome) ∧
    ((∀ params ∈ grid, (runCombo params).toOption = none) →
      run_backtest runCombo sharpeOf grid = []) := by
  constructor
  · rw [(run_backtest_perm runCombo sharpeOf grid).length_eq]
    exact survivors_length runCombo grid
  · intro hfail
    unfold run_backtest
    rw [survivors_eq_nil_of_all_fail runCombo grid hfail]
    simp

/-- C9 witness: a 9-combination grid in which combinations 2 and 5 raise
during data loading yields a 7-row table; a grid whose combinations all
fail yields the empty table. -/
theorem backtest_fault_isolation_witness :
    (run_backtest
      (fun n : ℕ => if n = 2 ∨ n = 5 then .error "load failed" else .ok (n : ℚ))
      id [0, 1, 2, 3, 4, 5, 6, 7, 8]).length = 7 ∧
    (∀ params ∈ ([0, 1, 2] : List ℕ),
      ((fun _ : ℕ => (.error "load failed" : Except String ℚ)) params).toOption
        = none) ∧
    run_backtest (fun _ : ℕ => (.error "load failed" : Except String ℚ)) id
      [0, 1, 2] = [] := by
  refine ⟨?_, fun params _ => rfl, ?_⟩
  · rw [(backtest_fault_isolation
      (fun n : ℕ => if n = 2 ∨ n = 5 then .error "load failed" else .ok (n : ℚ))
      id [0, 1, 2, 3, 4, 5, 6, 7, 8]).1]
    decide
  · exact (backtest_fault_isolation
      (fun _ : ℕ => (.error "load failed" : Except String ℚ)) id [0, 1, 2]).2
      (fun params _ => rfl)

end StratBuild

/-! ### Concrete evaluation checks of the simulator embedding -/

open StratBuild in
example : StratBuild.shift1 [1, 2, 3] = [none, some 1, some 2] := by
  norm_num [shift1]
open StratBuild in
example : StratBuild.trade_sizes [0, 1, 1, -1] = [0, 0, 1, 0] := by
  norm_num [trade_sizes, diffNan, shift1, osub, absFill0]
open StratBuild in
example : (StratBuild.buildPortfolio [100, 101] [0, 0] {}).strategy_returns
    = [none, some 0] := by
  norm_num [buildPortfolio, pct_change_fill0, shift1, diffNan, osub, absFill0]
open StratBuild in
example : (StratBuild.buildPortfolio [100, 101] [1, 1] {}).position
    = [none, some 1] := by
  norm_num [buildPortfolio, shift1]
